import Mathlib

/-!
Verification of the Capturist screen-recorder core (src-tauri/src).

Shallow embedding conventions:
* Machine integers are modelled as `Nat` (unsigned) or `Int` (signed); a
  wrapping operation of the source is rendered with an explicit `% 2^w`,
  a saturating operation with `Nat` truncated subtraction / `min`.
  Release-profile semantics (wrapping) are used for Rust's plain `+` on
  unsigned integers where the source does not guard against overflow.
* Fallible Rust functions returning `Result<T, String>` become
  `Except String T`; the Spanish error messages are kept verbatim.
* Shared-memory cells read by the embedded code paths (atomic counters,
  the worker error slot, channel occupancy) are passed in explicitly:
  each atomic read of the source becomes one explicit observation value,
  and a callback becomes a state-transition function.
* Wall-clock instants (`std::time::Instant`) become a `Nat` millisecond
  parameter `now`; `since.elapsed()` becomes `now - since`.
* Filesystem metadata (`fs::metadata`) becomes an `Option FileMeta`
  observation (`none` models an `Err` from the OS).
-/

namespace Capturist

/-! ## Capture data model (src/capture/models.rs) -/

/-- `TargetKind` from models.rs. -/
inductive TargetKind where
  | monitor
  | window
deriving DecidableEq, Repr

/-- `CaptureTarget` from models.rs (u32 fields as `Nat`, i32 as `Int`). -/
structure CaptureTarget where
  id : Nat
  name : String
  width : Nat
  height : Nat
  originX : Int
  originY : Int
  screenWidth : Nat
  screenHeight : Nat
  isPrimary : Bool
  kind : TargetKind
deriving DecidableEq, Repr

/-- `Region` from models.rs: non-negative crop rectangle (u32 fields). -/
structure Region where
  x : Nat
  y : Nat
  width : Nat
  height : Nat
deriving DecidableEq, Repr

/-- Wrapping `u32` addition: Rust's `a + b` on `u32` in the release
profile computes `(a + b) mod 2^32`. -/
def u32add (a b : Nat) : Nat :=
  (a + b) % 2 ^ 32

/-- `Region::validate_against_target` (models.rs lines 35-55), with the
unchecked `self.x + self.width` / `self.y + self.height` additions
rendered as wrapping `u32` additions. -/
def Region.validate_against_target (r : Region) (t : CaptureTarget) : Except String Unit :=
  if r.width = 0 ∨ r.height = 0 then
    .error "La región de captura debe tener ancho y alto mayores a 0"
  else if u32add r.x r.width > t.width then
    .error ("La región excede el ancho del target: x(" ++ toString r.x ++ ") + width("
      ++ toString r.width ++ ") > target_width(" ++ toString t.width ++ ")")
  else if u32add r.y r.height > t.height then
    .error ("La región excede el alto del target: y(" ++ toString r.y ++ ") + height("
      ++ toString r.height ++ ") > target_height(" ++ toString t.height ++ ")")
  else
    .ok ()

/-- Spec-side predicate (from the claim's words): the region fits in the
target, with exact (non-wrapping) arithmetic. -/
def RegionFitsTarget (r : Region) (t : CaptureTarget) : Prop :=
  0 < r.width ∧ 0 < r.height ∧ r.x + r.width ≤ t.width ∧ r.y + r.height ≤ t.height

instance (r : Region) (t : CaptureTarget) : Decidable (RegionFitsTarget r t) :=
  inferInstanceAs (Decidable
    (0 < r.width ∧ 0 < r.height ∧ r.x + r.width ≤ t.width ∧ r.y + r.height ≤ t.height))

/-- A sample 100×100 monitor target used by concrete evaluations. -/
def sampleTarget100 : CaptureTarget :=
  { id := 1, name := "Monitor de prueba", width := 100, height := 100,
    originX := 0, originY := 0, screenWidth := 100, screenHeight := 100,
    isPrimary := true, kind := .monitor }

/-! ## RawFrame (src/capture/models.rs lines 58-182) -/

/-- `RawFrame` from models.rs; `data` keeps only what the embedded code
inspects (the byte list), `gpu_texture_ptr` is an optional address. -/
structure RawFrame where
  data : List Nat
  width : Nat
  height : Nat
  row_stride_bytes : Nat
  gpu_texture_ptr : Option Nat
  timestamp_ms : Nat
deriving DecidableEq, Repr

/-- `RawFrame::min_row_stride_bytes`: `width.saturating_mul(4)` on u32. -/
def RawFrame.min_row_stride_bytes (width : Nat) : Nat :=
  min (width * 4) (2 ^ 32 - 1)

/-- `RawFrame::new` (models.rs lines 71-87): raises the caller-supplied
row stride to the minimum and leaves the GPU pointer empty. -/
def RawFrame.new (data : List Nat) (width height row_stride_bytes timestamp_ms : Nat) :
    RawFrame :=
  { data := data
    width := width
    height := height
    row_stride_bytes := max row_stride_bytes (RawFrame.min_row_stride_bytes width)
    gpu_texture_ptr := none
    timestamp_ms := timestamp_ms }

/-- `RawFrame::expected_size`: `height.saturating_mul(row_stride_bytes)`
on u32, then widened to usize. -/
def RawFrame.expected_size (height row_stride_bytes : Nat) : Nat :=
  min (height * row_stride_bytes) (2 ^ 32 - 1)

/-- `RawFrame::is_cpu_layout_valid` (models.rs lines 171-182). -/
def RawFrame.is_cpu_layout_valid (f : RawFrame) : Bool :=
  if f.width = 0 ∨ f.height = 0 then false
  else if f.row_stride_bytes < RawFrame.min_row_stride_bytes f.width then false
  else decide (f.data.length ≥ RawFrame.expected_size f.height f.row_stride_bytes)

/-! ## Stable target IDs (provider.rs lines 261-271, runtime.rs lines 160-169)

Two textually separate copies of the same mixing function live in the
screen provider and in the capture runtime; both are embedded, one per
source site.  `u64` values are `Nat` below `2^64`; `wrapping_mul` is
multiplication `% 2^64`; `^`/`>>` are `Nat.xor` / `Nat.shiftRight`. -/

/-- `MONITOR_SALT` from provider.rs line 145. -/
def provider.MONITOR_SALT : Nat := 0x045D9F3B

/-- `WINDOW_SALT` from provider.rs line 146. -/
def provider.WINDOW_SALT : Nat := 0x27D4EB2D

/-- `MONITOR_SALT` from runtime.rs line 65. -/
def runtime.MONITOR_SALT : Nat := 0x045D9F3B

/-- `WINDOW_SALT` from runtime.rs line 66. -/
def runtime.WINDOW_SALT : Nat := 0x27D4EB2D

/-- `stable_target_id` as written in provider.rs lines 261-271. -/
def provider.stable_target_id (base salt : Nat) : Nat :=
  let v0 := Nat.xor base salt
  let v1 := Nat.xor v0 (v0 >>> 33)
  let v2 := v1 * 0xff51afd7ed558ccd % 2 ^ 64
  let v3 := Nat.xor v2 (v2 >>> 33)
  let v4 := v3 * 0xc4ceb9fe1a85ec53 % 2 ^ 64
  let v5 := Nat.xor v4 (v4 >>> 33)
  max (v5 % 2 ^ 32) 1

/-- `stable_target_id` as written in runtime.rs lines 160-169. -/
def runtime.stable_target_id (base salt : Nat) : Nat :=
  let v0 := Nat.xor base salt
  let v1 := Nat.xor v0 (v0 >>> 33)
  let v2 := v1 * 0xff51afd7ed558ccd % 2 ^ 64
  let v3 := Nat.xor v2 (v2 >>> 33)
  let v4 := v3 * 0xc4ceb9fe1a85ec53 % 2 ^ 64
  let v5 := Nat.xor v4 (v4 >>> 33)
  max (v5 % 2 ^ 32) 1

/-! ## Video pipeline queue callbacks (src/capture/manager.rs lines 409-535)

The `AsyncVideoPipeline` shared cells become an explicit record.  The
`workerError` field is the value observed by the callback's entry read of
the error slot; the extra `reread` argument of `frame_callback` is the
value observed by its second read inside the disconnected branch (the
slot can be written concurrently by the worker between the two reads).
The outcome of `try_send` depends on the private channel occupancy, so it
is an explicit observation too. -/

/-- `VIDEO_PIPELINE_QUEUE_CAPACITY` (manager.rs line 409). -/
def VIDEO_PIPELINE_QUEUE_CAPACITY : Nat := 6

/-- Observable pipeline counters plus the entry observation of the worker
error slot. -/
structure PipelineState where
  workerError : Option String
  queued : Nat
  dropped : Nat
deriving DecidableEq, Repr

/-- Result of the `try_send` attempt on the bounded channel. -/
inductive ChannelObs where
  | accepted
  | full
  | disconnected
deriving DecidableEq, Repr

/-- `should_accept_frame` closure (manager.rs lines 488-498): error if the
worker recorded a fatal error, else `queued < capacity`.  The mutex
around the error slot is modelled as always acquirable. -/
def should_accept_frame (s : PipelineState) : Except String Bool :=
  match s.workerError with
  | some err => .error err
  | none => .ok (decide (s.queued < VIDEO_PIPELINE_QUEUE_CAPACITY))

/-- `frame_callback` closure (manager.rs lines 507-535).  `ch` is the
`try_send` outcome, `reread` the second observation of the error slot
made in the disconnected branch.  Decrements use `Nat` truncated
subtraction, matching `decrement_queued_frames`'s `saturating_sub`. -/
def frame_callback (s : PipelineState) (ch : ChannelObs) (reread : Option String) :
    PipelineState × Except String Unit :=
  match s.workerError with
  | some err => (s, .error err)
  | none =>
    let s1 : PipelineState := { s with queued := s.queued + 1 }
    match ch with
    | .accepted => (s1, .ok ())
    | .full =>
      ({ s1 with queued := s1.queued - 1, dropped := s1.dropped + 1 }, .ok ())
    | .disconnected =>
      let s2 : PipelineState := { s1 with queued := s1.queued - 1 }
      match reread with
      | some err => (s2, .error err)
      | none => (s2, .error "El worker de codificación de video se desconectó")

/-! ## Encoder PTS assignment (src/encoder/consumer.rs)

`EncoderContext` is created with `first_timestamp_ms: None, last_pts: -1`
(consumer.rs lines 298-299).  Both the CPU input pipeline (lines 496-504)
and the GPU input pipeline (lines 531-539) run the same PTS computation;
each source site is embedded separately.  `frame.timestamp_ms` is a
`u64`; `saturating_sub` is `Nat` truncated subtraction; the `as i64`
conversion and the `i64` increment wrap modulo `2^64` into
`[-2^63, 2^63)`. -/

/-- Wrap an integer into the `i64` range (two's-complement semantics of
`as i64` conversions and release-profile `i64` arithmetic). -/
def wrapI64 (z : Int) : Int :=
  (z + 2 ^ 63) % 2 ^ 64 - 2 ^ 63

/-- The PTS-relevant slice of `EncoderContext`. -/
structure EncoderPtsState where
  first_timestamp_ms : Option Nat
  last_pts : Int
deriving DecidableEq, Repr

/-- `EncoderContext` initial PTS state (consumer.rs lines 298-299). -/
def EncoderPtsState.initial : EncoderPtsState :=
  { first_timestamp_ms := none, last_pts := -1 }

/-- PTS computation of `FfmpegEncoderConsumer::encode_frame`, CPU
pipeline (consumer.rs lines 496-504). -/
def encode_frame_pts_cpu (ctx : EncoderPtsState) (timestamp_ms : Nat) :
    EncoderPtsState × Int :=
  let first_ts := ctx.first_timestamp_ms.getD timestamp_ms
  let rel_ts_ms : Int := wrapI64 (timestamp_ms - first_ts : Nat)
  let pts : Int := if rel_ts_ms ≤ ctx.last_pts then wrapI64 (ctx.last_pts + 1) else rel_ts_ms
  ({ first_timestamp_ms := some first_ts, last_pts := pts }, pts)

/-- PTS computation of `FfmpegEncoderConsumer::encode_gpu_texture_frame`
(consumer.rs lines 531-539). -/
def encode_frame_pts_gpu (ctx : EncoderPtsState) (timestamp_ms : Nat) :
    EncoderPtsState × Int :=
  let first_ts := ctx.first_timestamp_ms.getD timestamp_ms
  let rel_ts_ms : Int := wrapI64 (timestamp_ms - first_ts : Nat)
  let pts : Int := if rel_ts_ms ≤ ctx.last_pts then wrapI64 (ctx.last_pts + 1) else rel_ts_ms
  ({ first_timestamp_ms := some first_ts, last_pts := pts }, pts)

/-- PTS values emitted by the CPU pipeline for a timestamp sequence,
starting from `ctx`. -/
def pts_trace_cpu_from (ctx : EncoderPtsState) : List Nat → List Int
  | [] => []
  | t :: ts =>
    let r := encode_frame_pts_cpu ctx t
    r.2 :: pts_trace_cpu_from r.1 ts

/-- PTS values emitted by the CPU pipeline over a whole session. -/
def pts_trace_cpu (ts : List Nat) : List Int :=
  pts_trace_cpu_from EncoderPtsState.initial ts

/-- PTS values emitted by the GPU pipeline for a timestamp sequence,
starting from `ctx`. -/
def pts_trace_gpu_from (ctx : EncoderPtsState) : List Nat → List Int
  | [] => []
  | t :: ts =>
    let r := encode_frame_pts_gpu ctx t
    r.2 :: pts_trace_gpu_from r.1 ts

/-- PTS values emitted by the GPU pipeline over a whole session. -/
def pts_trace_gpu (ts : List Nat) : List Int :=
  pts_trace_gpu_from EncoderPtsState.initial ts

/-- Spec-side PTS step, from the claim's words: PTS equals
`max (last_pts + 1) (timestamp_ms - first_timestamp_ms)` in exact
integer arithmetic. -/
def spec_pts_step (ctx : EncoderPtsState) (timestamp_ms : Nat) :
    EncoderPtsState × Int :=
  let first_ts := ctx.first_timestamp_ms.getD timestamp_ms
  let pts : Int := max (ctx.last_pts + 1) ((timestamp_ms : Int) - (first_ts : Int))
  ({ first_timestamp_ms := some first_ts, last_pts := pts }, pts)

/-- Spec-side PTS values for a timestamp sequence, starting from `ctx`. -/
def spec_pts_trace_from (ctx : EncoderPtsState) : List Nat → List Int
  | [] => []
  | t :: ts =>
    let r := spec_pts_step ctx t
    r.2 :: spec_pts_trace_from r.1 ts

/-- Spec-side PTS values over a whole session. -/
def spec_pts_trace (ts : List Nat) : List Int :=
  spec_pts_trace_from EncoderPtsState.initial ts

/-! ## Target bitrate estimation (src/encoder/consumer.rs lines 740-762)

`f64` arithmetic on these small products is exact enough to be modelled
by exact rational arithmetic; `f64::round` rounds half away from zero,
which on the positive values produced here coincides with Mathlib's
`round` (half up).  The final `clamped as u32` truncation is `Int.toNat`
after a clamp that already guarantees the value is a positive integer. -/

/-- `VideoCodec` from encoder/config.rs lines 31-35. -/
inductive VideoCodec where
  | h264
  | h265
  | vp9
deriving DecidableEq, Repr

/-- `QualityMode` from encoder/config.rs lines 60-65. -/
inductive QualityMode where
  | performance
  | balanced
  | quality
deriving DecidableEq, Repr

/-- `estimate_target_bitrate_kbps` (consumer.rs lines 740-762). -/
def estimate_target_bitrate_kbps (width height fps : Nat) (codec : VideoCodec)
    (quality_mode : QualityMode) : Nat :=
  let bpp : ℚ :=
    match quality_mode with
    | .performance => 55 / 1000
    | .balanced => 75 / 1000
    | .quality => 1 / 10
  let codec_factor : ℚ :=
    match codec with
    | .h264 => 1
    | .h265 => 72 / 100
    | .vp9 => 68 / 100
  let pixels_per_sec : ℚ := (width : ℚ) * (height : ℚ) * (min (max fps 1) 240 : Nat)
  let estimated_kbps : Int := round (pixels_per_sec * bpp * codec_factor / 1000)
  let clamped : Int := min (max estimated_kbps 2500) 80000
  clamped.toNat

/-- Spec-side bitrate formula, from the claim's words: floor of
`w·h·fps·bpp·codec_factor/1000`, clamped to `[2500, 80000]`. -/
def spec_bitrate_floor (width height fps : Nat) (codec : VideoCodec)
    (quality_mode : QualityMode) : Nat :=
  let bpp : ℚ :=
    match quality_mode with
    | .performance => 55 / 1000
    | .balanced => 75 / 1000
    | .quality => 1 / 10
  let codec_factor : ℚ :=
    match codec with
    | .h264 => 1
    | .h265 => 72 / 100
    | .vp9 => 68 / 100
  (min (max (⌊(width : ℚ) * (height : ℚ) * (fps : ℚ) * bpp * codec_factor / 1000⌋) 2500)
    80000).toNat

/-- Amended spec-side bitrate formula: round to nearest instead of
floor, and the frame rate clamped to `[1, 240]` as the code does. -/
def spec_bitrate_round (width height fps : Nat) (codec : VideoCodec)
    (quality_mode : QualityMode) : Nat :=
  let bpp : ℚ :=
    match quality_mode with
    | .performance => 55 / 1000
    | .balanced => 75 / 1000
    | .quality => 1 / 10
  let codec_factor : ℚ :=
    match codec with
    | .h264 => 1
    | .h265 => 72 / 100
    | .vp9 => 68 / 100
  (min (max (round ((width : ℚ) * (height : ℚ) * (min (max fps 1) 240 : Nat) * bpp *
    codec_factor / 1000)) 2500) 80000).toNat

/-! ## Audio track selection at finalize (audio_capture/platform) -/

/-- Filesystem metadata observation for a WAV side-file (`fs::metadata`
result: `none` models an OS error). -/
structure FileMeta where
  isFile : Bool
  len : Nat
deriving DecidableEq, Repr

/-- `WAV_HEADER_BYTES` (mux.rs line 23). -/
def WAV_HEADER_BYTES : Nat := 44

/-- `audio_file_has_payload` (mux.rs lines 25-29). -/
def audio_file_has_payload (meta : Option FileMeta) : Bool :=
  match meta with
  | some m => m.isFile && decide (m.len > WAV_HEADER_BYTES)
  | none => false

/-- `FIRST_ENABLE_UNSET` (wasapi_capture.rs line 31): `u64::MAX`. -/
def FIRST_ENABLE_UNSET : Nat := 2 ^ 64 - 1

/-- `normalized_track_delay` (wasapi_capture.rs lines 44-50). -/
def normalized_track_delay (raw_delay : Nat) : Nat :=
  if raw_delay = FIRST_ENABLE_UNSET then 0 else raw_delay

/-- `AudioTrackSource` (windows.rs lines 42-45). -/
inductive AudioTrackSource where
  | system
  | microphone
deriving DecidableEq, Repr

/-- `AudioTrackInput` (windows.rs lines 47-51); the `PathBuf` is kept as
a string. -/
structure AudioTrackInput where
  path : String
  delay_ms : Nat
  source : AudioTrackSource
deriving DecidableEq, Repr

/-- The per-endpoint state `finalize_and_mux` reads from an
`ActiveCapture` worker: its ever-enabled flag, its WAV path and the
observed metadata of that file, and its first-enable offset. -/
structure CaptureTrackState where
  everEnabled : Bool
  wavPath : String
  wavMeta : Option FileMeta
  firstEnabledAtMs : Nat
deriving DecidableEq, Repr

/-- The track-collection phase of `AudioCaptureServiceImpl::finalize_and_mux`
(windows.rs lines 178-202): a present endpoint contributes a track iff its
ever-enabled flag is set and its WAV file has payload. -/
def collect_audio_tracks (system_capture microphone_capture : Option CaptureTrackState) :
    List AudioTrackInput :=
  let sysPart : List AudioTrackInput :=
    match system_capture with
    | some track =>
      if track.everEnabled && audio_file_has_payload track.wavMeta then
        [{ path := track.wavPath, delay_ms := normalized_track_delay track.firstEnabledAtMs,
           source := .system }]
      else []
    | none => []
  let micPart : List AudioTrackInput :=
    match microphone_capture with
    | some track =>
      if track.everEnabled && audio_file_has_payload track.wavMeta then
        [{ path := track.wavPath, delay_ms := normalized_track_delay track.firstEnabledAtMs,
           source := .microphone }]
      else []
    | none => []
  sysPart ++ micPart

/-! ## Capture Manager state machine (src/capture/manager.rs lines 76-357)

The manager is embedded as an explicit state machine over millisecond
wall-clock times.  Side-effecting collaborators are abstracted into a
per-operation environment:
* `runtimeFinished`: the value `runtime.is_finished()` would return;
* `waitErr` / `stopErr`: the error payload of `runtime.wait()` /
  `runtime.stop()` (`none` for `Ok`);
* `buildOk`: whether the `start` validations that depend on the
  provider and the runtime factory succeed (fps in range, target found,
  crop valid against it, runtime built).
Sessions additionally carry a model-level identity `sid` drawn from a
manager counter, so that "the same session" is expressible across
operations; it does not influence any embedded computation. -/

/-- `CaptureState` from models.rs lines 204-209. -/
inductive CaptureState where
  | idle
  | running
  | paused
  | stopped
deriving DecidableEq, Repr

/-- `CaptureState::can_start` (models.rs lines 212-214). -/
def CaptureState.can_start : CaptureState → Bool
  | .idle => true
  | _ => false

/-- `CaptureState::can_pause` (models.rs lines 216-218). -/
def CaptureState.can_pause : CaptureState → Bool
  | .running => true
  | _ => false

/-- `CaptureState::can_resume` (models.rs lines 220-222). -/
def CaptureState.can_resume : CaptureState → Bool
  | .paused => true
  | _ => false

/-- `CaptureState::can_stop` (models.rs lines 224-226). -/
def CaptureState.can_stop : CaptureState → Bool
  | .running => true
  | .paused => true
  | _ => false

/-- The `Display` rendering of `CaptureState` (models.rs lines 229-238). -/
def CaptureState.display : CaptureState → String
  | .idle => "Idle"
  | .running => "Running"
  | .paused => "Paused"
  | .stopped => "Stopped"

/-- `ActiveSession` (manager.rs lines 76-82); the runtime handle is kept
only as a presence bit (its behaviour lives in the environment). -/
structure ActiveSession where
  sid : Nat
  state : CaptureState
  elapsed_before_pause_ms : Nat
  last_resume_at : Option Nat
  last_error : Option String
  runtimePresent : Bool
deriving DecidableEq, Repr

/-- `ActiveSession::new` (manager.rs lines 85-93). -/
def ActiveSession.new (sid now : Nat) : ActiveSession :=
  { sid := sid, state := .running, elapsed_before_pause_ms := 0,
    last_resume_at := some now, last_error := none, runtimePresent := true }

/-- `ActiveSession::accumulate_elapsed` (manager.rs lines 95-99):
`take` the resume instant and add `now - since` to the accumulator. -/
def ActiveSession.accumulate_elapsed (s : ActiveSession) (now : Nat) : ActiveSession :=
  match s.last_resume_at with
  | some since =>
    { s with elapsed_before_pause_ms := s.elapsed_before_pause_ms + (now - since),
             last_resume_at := none }
  | none => s

/-- `ActiveSession::elapsed_ms` (manager.rs lines 101-112). -/
def ActiveSession.elapsed_ms (s : ActiveSession) (now : Nat) : Nat :=
  match s.state with
  | .running =>
    match s.last_resume_at with
    | some since => s.elapsed_before_pause_ms + (now - since)
    | none => s.elapsed_before_pause_ms
  | _ => s.elapsed_before_pause_ms

/-- Per-operation observations of the manager's collaborators. -/
structure ManagerEnv where
  runtimeFinished : Bool
  waitErr : Option String
  stopErr : Option String
  buildOk : Bool
deriving DecidableEq, Repr

/-- `ActiveSession::runtime_finished` (manager.rs lines 114-119):
`true` when the runtime handle is gone, else the handle's report. -/
def ActiveSession.runtime_finished (s : ActiveSession) (env : ManagerEnv) : Bool :=
  if s.runtimePresent then env.runtimeFinished else true

/-- `CaptureManager`'s session slot plus the model-level sid counter. -/
structure Manager where
  activeSession : Option ActiveSession
  nextSid : Nat
deriving DecidableEq, Repr

/-- A fresh manager (`CaptureManager::with_dependencies`). -/
def Manager.new : Manager :=
  { activeSession := none, nextSid := 0 }

/-- `cleanup_stopped_session_if_any` (manager.rs lines 169-179). -/
def Manager.cleanup_stopped_session_if_any (m : Manager) : Manager :=
  match m.activeSession with
  | some s => if s.state = .stopped then { m with activeSession := none } else m
  | none => m

/-- `finalize_finished_runtime_if_any` (manager.rs lines 181-206): when a
live session's runtime reports finished, accumulate elapsed, move to
`Stopped`, drop the runtime handle and record `wait`'s error, if any. -/
def Manager.finalize_finished_runtime_if_any (m : Manager) (env : ManagerEnv) (now : Nat) :
    Manager :=
  match m.activeSession with
  | some s =>
    if (s.state = .running ∨ s.state = .paused) ∧ s.runtime_finished env then
      let s1 := s.accumulate_elapsed now
      let s2 : ActiveSession :=
        { s1 with state := .stopped, last_resume_at := none, runtimePresent := false,
                  last_error := if s.runtimePresent then
                      (match env.waitErr with
                       | some err => some err
                       | none => s1.last_error)
                    else s1.last_error }
      { m with activeSession := some s2 }
    else m
  | none => m

/-- `CaptureManager::start` (manager.rs lines 220-245), with the
provider/factory-dependent validations collapsed into `env.buildOk`. -/
def Manager.start (m : Manager) (env : ManagerEnv) (now : Nat) :
    Manager × Except String Unit :=
  let m1 := (m.finalize_finished_runtime_if_any env now).cleanup_stopped_session_if_any
  match m1.activeSession with
  | some _ => (m1, .error "Ya existe una grabación en curso")
  | none =>
    if env.buildOk then
      ({ activeSession := some (ActiveSession.new m1.nextSid now),
         nextSid := m1.nextSid + 1 }, .ok ())
    else
      (m1, .error "No se pudo iniciar la sesión de captura")

/-- `CaptureManager::pause` (manager.rs lines 247-269). -/
def Manager.pause (m : Manager) (env : ManagerEnv) (now : Nat) :
    Manager × Except String Unit :=
  let m1 := m.finalize_finished_runtime_if_any env now
  match m1.activeSession with
  | none => (m1, .error "No hay una grabación activa")
  | some s =>
    if s.state.can_pause then
      let s1 := (s.accumulate_elapsed now)
      ({ m1 with activeSession := some { s1 with state := .paused } }, .ok ())
    else
      (m1, .error ("Transición inválida: no se puede pausar desde " ++ s.state.display))

/-- `CaptureManager::resume` (manager.rs lines 271-293). -/
def Manager.resume (m : Manager) (env : ManagerEnv) (now : Nat) :
    Manager × Except String Unit :=
  let m1 := m.finalize_finished_runtime_if_any env now
  match m1.activeSession with
  | none => (m1, .error "No hay una grabación activa")
  | some s =>
    if s.state.can_resume then
      ({ m1 with activeSession := some { s with state := .running,
                                                last_resume_at := some now } }, .ok ())
    else
      (m1, .error ("Transición inválida: no se puede reanudar desde " ++ s.state.display))

/-- `CaptureManager::stop` (manager.rs lines 295-326): the session is
taken out of the slot; on an invalid transition (or a failing
`runtime.stop()`) it is put back and an error returned. -/
def Manager.stop (m : Manager) (env : ManagerEnv) (now : Nat) :
    Manager × Except String Unit :=
  let m1 := m.finalize_finished_runtime_if_any env now
  match m1.activeSession with
  | none => (m1, .error "No hay una grabación activa")
  | some s =>
    let taken : Manager := { m1 with activeSession := none }
    if s.state.can_stop then
      let s1 := { s.accumulate_elapsed now with state := CaptureState.stopped }
      if s1.runtimePresent then
        match env.stopErr with
        | some err =>
          let s2 := { s1 with runtimePresent := false, last_error := some err }
          ({ taken with activeSession := some s2 }, .error err)
        | none => (taken, .ok ())
      else (taken, .ok ())
    else if s.state ≠ .stopped then
      ({ taken with activeSession := some s },
       .error ("Transición inválida: no se puede detener desde " ++ s.state.display))
    else
      if s.runtimePresent then
        match env.stopErr with
        | some err =>
          let s2 := { s with runtimePresent := false, last_error := some err }
          ({ taken with activeSession := some s2 }, .error err)
        | none => (taken, .ok ())
      else (taken, .ok ())

/-- `CaptureManager::cancel` (manager.rs lines 328-330): delegates to
`stop`. -/
def Manager.cancel (m : Manager) (env : ManagerEnv) (now : Nat) :
    Manager × Except String Unit :=
  m.stop env now

/-- `CaptureManager::refresh_runtime_state` (manager.rs lines 208-210). -/
def Manager.refresh_runtime_state (m : Manager) (env : ManagerEnv) (now : Nat) : Manager :=
  m.finalize_finished_runtime_if_any env now

/-- The state of `CaptureManager::snapshot` (manager.rs lines 332-349). -/
def Manager.snapshot_state (m : Manager) : CaptureState :=
  match m.activeSession with
  | some s => s.state
  | none => .idle

/-- The elapsed milliseconds of `CaptureManager::snapshot`. -/
def Manager.snapshot_elapsed_ms (m : Manager) (now : Nat) : Nat :=
  match m.activeSession with
  | some s => s.elapsed_ms now
  | none => 0

/-- The manager operations quantified over by the elapsed-monotonicity
claim; `snapshotOp` is the (pure) snapshot read. -/
inductive ManagerOp where
  | startOp
  | pauseOp
  | resumeOp
  | stopOp
  | cancelOp
  | refreshOp
  | snapshotOp
deriving DecidableEq, Repr

/-- One manager operation as a state transition (result value dropped). -/
def Manager.step (m : Manager) (op : ManagerOp) (env : ManagerEnv) (now : Nat) : Manager :=
  match op with
  | .startOp => (m.start env now).1
  | .pauseOp => (m.pause env now).1
  | .resumeOp => (m.resume env now).1
  | .stopOp => (m.stop env now).1
  | .cancelOp => (m.cancel env now).1
  | .refreshOp => m.refresh_runtime_state env now
  | .snapshotOp => m

/-- Run a timed trace of manager operations. -/
def Manager.run (m : Manager) : List (ManagerOp × ManagerEnv × Nat) → Manager
  | [] => m
  | (op, env, now) :: rest => (m.step op env now).run rest

/-- The elapsed reading for the current session, tagged with the session
identity (`none` when no session is held). -/
def Manager.session_reading (m : Manager) (now : Nat) : Option (Nat × Nat) :=
  m.activeSession.map fun s => (s.sid, s.elapsed_ms now)

/-- An optional resume instant is bounded by `t`. -/
def resumeLE : Option Nat → Nat → Prop
  | some r, t => r ≤ t
  | none, _ => True

instance (o : Option Nat) (t : Nat) : Decidable (resumeLE o t) :=
  match o with
  | some r => Nat.decLe r t
  | none => .isTrue trivial

/-- Session well-formedness at time `t`: the resume instant is not in
the future and the sid is below the manager's counter. -/
def SessionWF (s : ActiveSession) (t : Nat) (nextSid : Nat) : Prop :=
  resumeLE s.last_resume_at t ∧ s.sid < nextSid

instance (s : ActiveSession) (t n : Nat) : Decidable (SessionWF s t n) :=
  inferInstanceAs (Decidable (resumeLE s.last_resume_at t ∧ s.sid < n))

/-- Manager well-formedness at time `t` (vacuous without a session). -/
def sessionOptWF : Option ActiveSession → Nat → Nat → Prop
  | some s, t, nextSid => SessionWF s t nextSid
  | none, _, _ => True

instance (o : Option ActiveSession) (t n : Nat) : Decidable (sessionOptWF o t n) :=
  match o with
  | some s => inferInstanceAs (Decidable (SessionWF s t n))
  | none => .isTrue trivial

/-- Manager well-formedness at time `t`. -/
def ManagerWF (m : Manager) (t : Nat) : Prop :=
  sessionOptWF m.activeSession t m.nextSid

instance (m : Manager) (t : Nat) : Decidable (ManagerWF m t) :=
  inferInstanceAs (Decidable (sessionOptWF m.activeSession t m.nextSid))

/-- Times of a timed trace are non-decreasing, bounded below by `t1` and
above by `t2`. -/
def TimesChain (t1 : Nat) (trace : List (ManagerOp × ManagerEnv × Nat)) (t2 : Nat) : Prop :=
  List.Chain (· ≤ ·) t1 (trace.map (fun e => e.2.2) ++ [t2])

/-- Substring containment on strings (used to state that an error
message names a state). -/
def strContains (haystack needle : String) : Prop :=
  needle.toList <:+: haystack.toList

instance (h n : String) : Decidable (strContains h n) :=
  inferInstanceAs (Decidable (n.toList <:+: h.toList))

instance (t1 : Nat) (trace : List (ManagerOp × ManagerEnv × Nat)) (t2 : Nat) :
    Decidable (TimesChain t1 trace t2) :=
  inferInstanceAs (Decidable
    (List.Chain (· ≤ ·) t1 (trace.map (fun e => e.2.2) ++ [t2])))

/-! # Theorems -/

/-! ## Claim C1: region validation -/

/-- Claim C1 counterexample: with the source's unchecked `u32` addition,
`x = 2^32 - 1, width = 1` wraps to `0`, so validation accepts a region
that does not fit a 100×100 target (mathematically `x + width = 2^32 >
100`), refuting the accepts-iff-fits equivalence as stated. -/
theorem region_validate_wrap_counterexample :
    Region.validate_against_target ⟨2 ^ 32 - 1, 0, 1, 1⟩ sampleTarget100 = .ok () ∧
      ¬ RegionFitsTarget ⟨2 ^ 32 - 1, 0, 1, 1⟩ sampleTarget100 := by
  constructor
  · rfl
  · decide

/-- Claim C1 (amended): `Region::validate_against_target` accepts iff
`width > 0`, `height > 0`, and the `u32`-wrapped sums `x + width` and
`y + height` are bounded by the target; in particular the claim as
stated holds whenever `x + width` and `y + height` do not overflow
`u32`. -/
theorem region_validate_accepts_iff (r : Region) (t : CaptureTarget) :
    r.validate_against_target t = .ok () ↔
      0 < r.width ∧ 0 < r.height ∧
        u32add r.x r.width ≤ t.width ∧ u32add r.y r.height ≤ t.height := by
  unfold Region.validate_against_target
  split_ifs with h1 h2 h3 <;> simp <;> omega

/-! ## Claim C3: frame admission -/

/-- Claim C3: `should_accept_frame` errors exactly when the worker error
slot is occupied (returning that stored error), and otherwise returns
`true` exactly when `queued` is strictly below the fixed capacity 6; so
an admitted frame (result `Ok(true)`) had `queued < capacity`. -/
theorem should_accept_frame_spec (s : PipelineState) :
    (∀ err, should_accept_frame s = .error err ↔ s.workerError = some err) ∧
    (should_accept_frame s = .ok true ↔
      s.workerError = none ∧ s.queued < VIDEO_PIPELINE_QUEUE_CAPACITY) ∧
    (should_accept_frame s = .ok false ↔
      s.workerError = none ∧ ¬ s.queued < VIDEO_PIPELINE_QUEUE_CAPACITY) := by
  unfold should_accept_frame
  cases hw : s.workerError with
  | none => simp
  | some err => simp

/-! ## Claim C7: stable target IDs -/

/-- Claim C7: the target-ID mixing function is a pure function (hence
deterministic), always returns a non-zero value that fits in 32 bits,
and the provider.rs copy and the runtime.rs copy (including their salt
constants) agree on every input, so IDs from enumeration resolve to the
same target at capture start. -/
theorem stable_target_id_agreement (base salt : Nat) :
    provider.stable_target_id base salt = runtime.stable_target_id base salt ∧
    0 < provider.stable_target_id base salt ∧
    provider.stable_target_id base salt < 2 ^ 32 ∧
    provider.MONITOR_SALT = runtime.MONITOR_SALT ∧
    provider.WINDOW_SALT = runtime.WINDOW_SALT := by
  refine ⟨rfl, ?_, ?_, rfl, rfl⟩
  · exact Nat.lt_of_lt_of_le Nat.zero_lt_one (Nat.le_max_right _ _)
  · exact max_lt (Nat.mod_lt _ (by norm_num)) (by norm_num)

/-! ## Claim C8: audio track selection at finalize -/

/-- Claim C8: a present audio endpoint contributes a track to the set
fed to the mux stage iff its ever-enabled flag is set and its WAV
side-file is a regular file strictly larger than the 44-byte header; a
never-enabled track is excluded. -/
theorem collect_audio_tracks_spec (sys mic : Option CaptureTrackState) :
    ((∃ inp ∈ collect_audio_tracks sys mic, inp.source = .system) ↔
      (∃ tr, sys = some tr ∧ tr.everEnabled = true ∧
        audio_file_has_payload tr.wavMeta = true)) ∧
    ((∃ inp ∈ collect_audio_tracks sys mic, inp.source = .microphone) ↔
      (∃ tr, mic = some tr ∧ tr.everEnabled = true ∧
        audio_file_has_payload tr.wavMeta = true)) := by
  unfold collect_audio_tracks
  rcases sys with _ | ts <;> rcases mic with _ | tm <;> simp <;> aesop

/-! ## Claim C10: RawFrame::new -/

/-- Claim C10 counterexample: at `width = 2^30` the minimum stride
`width.saturating_mul(4)` saturates at `2^32 - 1`, so the constructed
frame's row stride is strictly below `4·width = 2^32`, refuting the
claimed `row_stride_bytes ≥ 4·width` as stated. -/
theorem raw_frame_new_counterexample :
    (RawFrame.new [] (2 ^ 30) 1 0 7).row_stride_bytes = 2 ^ 32 - 1 ∧
      ¬ 4 * 2 ^ 30 ≤ (RawFrame.new [] (2 ^ 30) 1 0 7).row_stride_bytes := by
  constructor
  · rfl
  · decide

/-- Claim C10 (amended): `RawFrame::new` yields
`row_stride_bytes = max(input, min_row_stride_bytes width)` where the
minimum stride is the saturating `u32` product `min (4·width) (2^32-1)`;
hence the stride is at least the minimum stride required by the
CPU-layout invariant, and at least `4·width` whenever `4·width` fits in
`u32`; the GPU pointer is `none` and all other fields equal the
inputs. -/
theorem raw_frame_new_spec (data : List Nat) (w h stride ts : Nat) :
    (RawFrame.new data w h stride ts).row_stride_bytes =
      max stride (RawFrame.min_row_stride_bytes w) ∧
    RawFrame.min_row_stride_bytes w ≤ (RawFrame.new data w h stride ts).row_stride_bytes ∧
    (4 * w < 2 ^ 32 → 4 * w ≤ (RawFrame.new data w h stride ts).row_stride_bytes) ∧
    (RawFrame.new data w h stride ts).gpu_texture_ptr = none ∧
    (RawFrame.new data w h stride ts).data = data ∧
    (RawFrame.new data w h stride ts).width = w ∧
    (RawFrame.new data w h stride ts).height = h ∧
    (RawFrame.new data w h stride ts).timestamp_ms = ts := by
  refine ⟨rfl, Nat.le_max_right _ _, ?_, rfl, rfl, rfl, rfl, rfl⟩
  intro hlt
  unfold RawFrame.new RawFrame.min_row_stride_bytes
  simp only
  omega

/-- Checks Claim C10's amended theorem at a concrete frame whose
`4·width` fits in `u32`. -/
theorem raw_frame_new_spec_witness :
    4 * 10 < 2 ^ 32 ∧ 4 * 10 ≤ (RawFrame.new [] 10 5 0 3).row_stride_bytes :=
  ⟨by norm_num, (raw_frame_new_spec [] 10 5 0 3).2.2.1 (by norm_num)⟩

/-! ## Claim C9: target bitrate estimation -/

/-- Claim C9 counterexample: at 20018×2000 @ 1 fps, H.264, balanced
quality, the product is `3002.7` kbps; the code's `round` yields 3003
while the claimed floor formula yields 3002. -/
theorem bitrate_round_counterexample :
    estimate_target_bitrate_kbps 20018 2000 1 .h264 .balanced = 3003 ∧
      spec_bitrate_floor 20018 2000 1 .h264 .balanced = 3002 := by
  constructor
  · simp only [estimate_target_bitrate_kbps]
    rw [round_eq]
    norm_num
    rfl
  · simp only [spec_bitrate_floor]
    norm_num
    rfl

/-- Claim C9 (amended): the estimated bitrate is the *round to nearest*
(not floor) of `w·h·fps·bpp·codec_factor/1000` with `fps` clamped to
`[1, 240]`, clamped to `[2500, 80000]`, with the claimed per-mode `bpp`
and per-codec factors (modelled in exact rational arithmetic). -/
theorem bitrate_estimate_spec (w h fps : Nat) (codec : VideoCodec) (q : QualityMode) :
    estimate_target_bitrate_kbps w h fps codec q = spec_bitrate_round w h fps codec q ∧
    2500 ≤ estimate_target_bitrate_kbps w h fps codec q ∧
    estimate_target_bitrate_kbps w h fps codec q ≤ 80000 := by
  cases codec <;> cases q <;>
    refine ⟨rfl, ?_, ?_⟩ <;>
    · simp only [estimate_target_bitrate_kbps]
      omega

/-! ## Claim C4: frame-arrived callback under full / disconnected channel -/

/-- Claim C4 counterexample: when a fatal worker error is already
recorded at the callback's entry read, a frame arriving while the
channel is full is not silently dropped: the callback returns the stored
error and leaves the dropped counter untouched, refuting the claim as
stated. -/
theorem frame_callback_counterexample :
    (frame_callback ⟨some "Error codificando frame de video: x", 3, 0⟩ .full none).2 =
      .error "Error codificando frame de video: x" ∧
    (frame_callback ⟨some "Error codificando frame de video: x", 3, 0⟩ .full none).1.dropped
      = 0 := by
  constructor <;> rfl

/-- Claim C4 (amended): provided no worker fatal error is recorded at the
callback's entry read, a frame arriving while the channel is full leaves
`queued` at its prior value, increments `dropped` by exactly one and
returns success; a disconnected channel leaves `queued` at its prior
value and `dropped` unchanged and returns the re-read stored worker
error if present, else the generic disconnect error. -/
theorem frame_callback_spec (s : PipelineState) (reread : Option String)
    (hok : s.workerError = none) :
    ((frame_callback s .full reread).1.queued = s.queued ∧
     (frame_callback s .full reread).1.dropped = s.dropped + 1 ∧
     (frame_callback s .full reread).2 = .ok ()) ∧
    ((frame_callback s .disconnected reread).1.queued = s.queued ∧
     (frame_callback s .disconnected reread).1.dropped = s.dropped ∧
     (frame_callback s .disconnected reread).2 =
       .error (reread.getD "El worker de codificación de video se desconectó")) := by
  unfold frame_callback
  rcases reread with _ | err <;> simp [hok]

/-- Checks Claim C4's amended theorem at a concrete pipeline state. -/
theorem frame_callback_spec_witness :
    (⟨none, 2, 7⟩ : PipelineState).workerError = none ∧
    ((frame_callback ⟨none, 2, 7⟩ .full none).1.queued = 2 ∧
     (frame_callback ⟨none, 2, 7⟩ .full none).1.dropped = 8 ∧
     (frame_callback ⟨none, 2, 7⟩ .full none).2 = .ok ()) :=
  ⟨rfl, (frame_callback_spec ⟨none, 2, 7⟩ none rfl).1⟩

/-! ## Claim C2: encoder PTS assignment -/

/-- `wrapI64` is the identity on the `i64` range. -/
theorem wrapI64_eq_self {z : Int} (h1 : -(2 ^ 63) ≤ z) (h2 : z < 2 ^ 63) :
    wrapI64 z = z := by
  unfold wrapI64; omega

/-- The GPU pipeline's PTS step is the same function as the CPU one. -/
theorem encode_frame_pts_gpu_eq_cpu :
    encode_frame_pts_gpu = encode_frame_pts_cpu := rfl

/-- The GPU pipeline's PTS trace coincides with the CPU one from any
starting state. -/
theorem pts_trace_gpu_from_eq (tss : List Nat) : ∀ ctx : EncoderPtsState,
    pts_trace_gpu_from ctx tss = pts_trace_cpu_from ctx tss := by
  induction tss with
  | nil => intro ctx; rfl
  | cons t rest ih =>
    intro ctx
    simp only [pts_trace_gpu_from, pts_trace_cpu_from, encode_frame_pts_gpu_eq_cpu, ih]

/-- One PTS step agrees with the spec formula whenever no `i64`
conversion wraps. -/
theorem encode_step_spec (ctx : EncoderPtsState) (t : Nat)
    (hlast : -1 ≤ ctx.last_pts) (hlastlt : ctx.last_pts + 1 < 2 ^ 63)
    (ht : (t : Int) < 2 ^ 63) :
    encode_frame_pts_cpu ctx t = spec_pts_step ctx t := by
  simp only [encode_frame_pts_cpu, spec_pts_step]
  have hsub : ((t - ctx.first_timestamp_ms.getD t : Nat) : Int) ≤ (t : Int) := by
    exact_mod_cast Nat.sub_le _ _
  have hw1 : wrapI64 (ctx.last_pts + 1) = ctx.last_pts + 1 :=
    wrapI64_eq_self (by omega) hlastlt
  have hw2 : wrapI64 ((t - ctx.first_timestamp_ms.getD t : Nat) : Int) =
      ((t - ctx.first_timestamp_ms.getD t : Nat) : Int) :=
    wrapI64_eq_self (by omega) (lt_of_le_of_lt hsub ht)
  rw [hw1, hw2]
  have hgoal : (if ((t - ctx.first_timestamp_ms.getD t : Nat) : Int) ≤ ctx.last_pts then
      ctx.last_pts + 1 else ((t - ctx.first_timestamp_ms.getD t : Nat) : Int)) =
      max (ctx.last_pts + 1) ((t : Int) - (ctx.first_timestamp_ms.getD t : Nat)) := by
    split_ifs with hc <;> omega
  rw [hgoal]

/-- PTS traces agree with the spec trace and are strictly increasing
from any well-bounded starting state. -/
theorem pts_trace_spec_from (tss : List Nat) : ∀ ctx : EncoderPtsState,
    -1 ≤ ctx.last_pts → (ctx.last_pts : Int) + tss.length < 2 ^ 63 →
    (∀ t ∈ tss, (t : Int) + tss.length ≤ 2 ^ 63) →
    pts_trace_cpu_from ctx tss = spec_pts_trace_from ctx tss ∧
    List.Chain (· < ·) ctx.last_pts (pts_trace_cpu_from ctx tss) := by
  induction tss with
  | nil => exact fun ctx _ _ _ => ⟨rfl, List.Chain.nil⟩
  | cons t rest ih =>
    intro ctx hlast hlen hts
    have hlenc : ((t :: rest).length : Int) = rest.length + 1 := by
      simp
    have hlastlt : ctx.last_pts + 1 < 2 ^ 63 := by
      have : (0 : Int) ≤ (rest.length : Int) := by positivity
      rw [hlenc] at hlen; omega
    have ht : (t : Int) < 2 ^ 63 := by
      have h1 := hts t (List.mem_cons_self t rest)
      have : (0 : Int) ≤ (rest.length : Int) := by positivity
      rw [hlenc] at h1; omega
    have hstep := encode_step_spec ctx t hlast hlastlt ht
    have hptseq : (encode_frame_pts_cpu ctx t).2 =
        max (ctx.last_pts + 1) ((t : Int) - (ctx.first_timestamp_ms.getD t : Nat)) := by
      rw [hstep]; rfl
    have hstate : (encode_frame_pts_cpu ctx t).1.last_pts = (encode_frame_pts_cpu ctx t).2 := by
      rw [hstep]; rfl
    have hsub : ((t - ctx.first_timestamp_ms.getD t : Nat) : Int) ≤ (t : Int) := by
      exact_mod_cast Nat.sub_le _ _
    have hrest := ih (encode_frame_pts_cpu ctx t).1
      (by rw [hstate, hptseq]; omega)
      (by
        rw [hstate, hptseq]
        have h2 : ((t : Int) - (ctx.first_timestamp_ms.getD t : Nat)) ≤ (t : Int) := by
          have : (0 : Int) ≤ (ctx.first_timestamp_ms.getD t : Nat) := by positivity
          omega
        have h1 := hts t (List.mem_cons_self t rest)
        rw [hlenc] at hlen h1
        omega)
      (by
        intro u hu
        have := hts u (List.mem_cons_of_mem t hu)
        rw [hlenc] at this
        omega)
    constructor
    · simp only [pts_trace_cpu_from, spec_pts_trace_from]
      rw [← hstep, hrest.1]
    · simp only [pts_trace_cpu_from]
      exact List.Chain.cons (by rw [hptseq]; omega)
        (by rw [← hstate]; exact hrest.2)

/-- A chain from any head bound is in particular an adjacent chain. -/
theorem chain_lt_chain' {a : Int} {l : List Int} (h : List.Chain (· < ·) a l) :
    List.Chain' (· < ·) l := by
  cases l with
  | nil => trivial
  | cons b t => exact (List.chain_cons.mp h).2

/-- Claim C2 counterexample: at timestamps `[0, 2^63]` the `as i64`
conversion of the second frame's offset wraps to `-2^63`, so the code
assigns PTS `1` where the claimed formula
`max(last_pts + 1, timestamp_ms - first_timestamp_ms)` demands `2^63`;
the claim as stated, quantified over all `u64` timestamp sequences, is
refuted. -/
theorem pts_wrap_counterexample :
    pts_trace_cpu [0, 2 ^ 63] = [0, 1] ∧
      spec_pts_trace [0, 2 ^ 63] = [0, 2 ^ 63] ∧ (1 : Int) ≠ 2 ^ 63 := by
  refine ⟨?_, ?_, by norm_num⟩ <;> rfl

/-- Claim C2 (amended): provided every frame timestamp plus the number
of frames stays within the signed-64-bit range (`t + n ≤ 2^63`, true of
any physical session), both the CPU and the GPU input pipelines assign
each encoded frame the PTS `max(last_pts + 1, timestamp_ms -
first_timestamp_ms)` (the spec-side trace), and the emitted PTS
sequence is strictly increasing in both pipelines. -/
theorem pts_assignment_spec (tss : List Nat)
    (hbound : ∀ t ∈ tss, t + tss.length ≤ 2 ^ 63) :
    pts_trace_cpu tss = spec_pts_trace tss ∧
    pts_trace_gpu tss = spec_pts_trace tss ∧
    List.Chain' (· < ·) (pts_trace_cpu tss) ∧
    List.Chain' (· < ·) (pts_trace_gpu tss) := by
  have hboundI : ∀ t ∈ tss, (t : Int) + tss.length ≤ 2 ^ 63 := by
    intro t ht
    exact_mod_cast hbound t ht
  have hlast0 : -1 ≤ EncoderPtsState.initial.last_pts := by
    norm_num [EncoderPtsState.initial]
  have hlen : (EncoderPtsState.initial.last_pts : Int) + tss.length < 2 ^ 63 := by
    cases tss with
    | nil => norm_num [EncoderPtsState.initial]
    | cons a rest =>
      have h1 := hboundI a (List.mem_cons_self a rest)
      have h0 : (0 : Int) ≤ (a : Int) := by positivity
      simp only [EncoderPtsState.initial]
      omega
  have hmain := pts_trace_spec_from tss EncoderPtsState.initial hlast0 hlen hboundI
  have hgpu : pts_trace_gpu tss = pts_trace_cpu tss := pts_trace_gpu_from_eq tss _
  have hcpu : pts_trace_cpu tss = spec_pts_trace tss := hmain.1
  have hchain : List.Chain' (· < ·) (pts_trace_cpu tss) := chain_lt_chain' hmain.2
  exact ⟨hcpu, by rw [hgpu, hcpu], hchain, by rw [hgpu]; exact hchain⟩

/-- Checks Claim C2's amended theorem on a concrete session (note the
out-of-order third timestamp, resolved by the `last_pts + 1` arm). -/
theorem pts_assignment_spec_witness :
    (∀ t ∈ [100, 150, 120, 200], t + [100, 150, 120, 200].length ≤ 2 ^ 63) ∧
    (pts_trace_cpu [100, 150, 120, 200] = spec_pts_trace [100, 150, 120, 200] ∧
     pts_trace_gpu [100, 150, 120, 200] = spec_pts_trace [100, 150, 120, 200] ∧
     List.Chain' (· < ·) (pts_trace_cpu [100, 150, 120, 200]) ∧
     List.Chain' (· < ·) (pts_trace_gpu [100, 150, 120, 200])) :=
  ⟨by decide, pts_assignment_spec [100, 150, 120, 200] (by decide)⟩

/-! ## Manager helper lemmas (towards Claims C5 and C6) -/

/-- The elapsed reading of a fixed session grows with time. -/
theorem elapsed_ms_mono_time (s : ActiveSession) {t u : Nat} (h : t ≤ u) :
    s.elapsed_ms t ≤ s.elapsed_ms u := by
  unfold ActiveSession.elapsed_ms
  cases hst : s.state <;> cases hr : s.last_resume_at <;> simp [hst, hr] <;> omega

/-- Accumulating at a later time dominates any earlier elapsed reading. -/
theorem elapsed_ms_le_accumulate (s : ActiveSession) {t u : Nat} (h : t ≤ u) :
    s.elapsed_ms t ≤ (s.accumulate_elapsed u).elapsed_before_pause_ms := by
  unfold ActiveSession.elapsed_ms ActiveSession.accumulate_elapsed
  cases hst : s.state <;> cases hr : s.last_resume_at <;> simp [hst, hr] <;> omega

/-- The stored accumulator bounds every elapsed reading from below. -/
theorem elapsed_before_le_elapsed_ms (s : ActiveSession) (now : Nat) :
    s.elapsed_before_pause_ms ≤ s.elapsed_ms now := by
  unfold ActiveSession.elapsed_ms
  cases hst : s.state <;> cases hr : s.last_resume_at <;> simp [hst, hr]

/-- `accumulate_elapsed` only touches the accumulator and the resume
instant. -/
theorem accumulate_elapsed_fields (s : ActiveSession) (now : Nat) :
    (s.accumulate_elapsed now).sid = s.sid ∧
    (s.accumulate_elapsed now).state = s.state ∧
    (s.accumulate_elapsed now).last_resume_at = none ∧
    (s.accumulate_elapsed now).last_error = s.last_error ∧
    (s.accumulate_elapsed now).runtimePresent = s.runtimePresent := by
  unfold ActiveSession.accumulate_elapsed
  cases hr : s.last_resume_at <;> simp [hr]

/-- `finalize_finished_runtime_if_any` keeps the sid counter. -/
theorem finalize_nextSid (m : Manager) (env : ManagerEnv) (now : Nat) :
    (m.finalize_finished_runtime_if_any env now).nextSid = m.nextSid := by
  cases hs : m.activeSession with
  | none => simp [Manager.finalize_finished_runtime_if_any, hs]
  | some s =>
    simp only [Manager.finalize_finished_runtime_if_any, hs]
    split_ifs <;> rfl

/-- `finalize_finished_runtime_if_any` keeps a session present exactly
when one was present, with the same identity and a no-smaller elapsed
reading. -/
theorem finalize_mono (m : Manager) (env : ManagerEnv) {t u : Nat} (h : t ≤ u) :
    ∀ s', (m.finalize_finished_runtime_if_any env u).activeSession = some s' →
      ∃ s, m.activeSession = some s ∧ s.sid = s'.sid ∧
        s.elapsed_ms t ≤ s'.elapsed_ms u := by
  cases hs : m.activeSession with
  | none => simp [Manager.finalize_finished_runtime_if_any, hs]
  | some s =>
    intro s' h'
    simp only [Manager.finalize_finished_runtime_if_any, hs] at h'
    by_cases hc : (s.state = CaptureState.running ∨ s.state = CaptureState.paused) ∧
        s.runtime_finished env = true
    · rw [if_pos hc] at h'
      simp only [Option.some.injEq] at h'
      subst h'
      refine ⟨s, rfl, ?_, ?_⟩
      · simp [(accumulate_elapsed_fields s u).1]
      · calc s.elapsed_ms t ≤ (s.accumulate_elapsed u).elapsed_before_pause_ms :=
              elapsed_ms_le_accumulate s h
          _ = _ := by simp [ActiveSession.elapsed_ms]
    · rw [if_neg hc] at h'
      rw [hs] at h'
      injection h' with h2
      exact ⟨s, rfl, by rw [h2], h2 ▸ elapsed_ms_mono_time s h⟩

/-- `finalize_finished_runtime_if_any` preserves well-formedness. -/
theorem finalize_WF (m : Manager) (env : ManagerEnv) {t u : Nat} (h : t ≤ u)
    (hwf : ManagerWF m t) : ManagerWF (m.finalize_finished_runtime_if_any env u) u := by
  unfold ManagerWF at hwf ⊢
  cases hs : m.activeSession with
  | none => simp [Manager.finalize_finished_runtime_if_any, hs, sessionOptWF]
  | some s =>
    rw [hs] at hwf
    simp only [sessionOptWF, SessionWF] at hwf
    simp only [Manager.finalize_finished_runtime_if_any, hs]
    by_cases hc : (s.state = CaptureState.running ∨ s.state = CaptureState.paused) ∧
        s.runtime_finished env = true
    · rw [if_pos hc]
      simp only [sessionOptWF, SessionWF, resumeLE, true_and]
      rw [(accumulate_elapsed_fields s u).1]
      exact hwf.2
    · rw [if_neg hc, hs]
      simp only [sessionOptWF, SessionWF]
      refine ⟨?_, hwf.2⟩
      cases hr : s.last_resume_at with
      | none => trivial
      | some r =>
        have h1 := hwf.1
        rw [hr] at h1
        simp only [resumeLE] at h1 ⊢
        omega

/-- `cleanup_stopped_session_if_any` keeps the sid counter. -/
theorem cleanup_nextSid (m : Manager) :
    m.cleanup_stopped_session_if_any.nextSid = m.nextSid := by
  cases hs : m.activeSession with
  | none => simp [Manager.cleanup_stopped_session_if_any, hs]
  | some s =>
    simp only [Manager.cleanup_stopped_session_if_any, hs]
    split_ifs <;> rfl

/-- A session surviving `cleanup_stopped_session_if_any` was already
there. -/
theorem cleanup_session (m : Manager) :
    ∀ s', m.cleanup_stopped_session_if_any.activeSession = some s' →
      m.activeSession = some s' := by
  cases hs : m.activeSession with
  | none => simp [Manager.cleanup_stopped_session_if_any, hs]
  | some s =>
    simp only [Manager.cleanup_stopped_session_if_any, hs]
    split_ifs <;> simp [hs]

/-- No operation decreases the sid counter. -/
theorem step_nextSid (m : Manager) (op : ManagerOp) (env : ManagerEnv) (u : Nat) :
    m.nextSid ≤ (m.step op env u).nextSid := by
  have hF := finalize_nextSid m env u
  have hC := cleanup_nextSid (m.finalize_finished_runtime_if_any env u)
  cases op with
  | startOp =>
    rcases hm2 : (m.finalize_finished_runtime_if_any env
        u).cleanup_stopped_session_if_any.activeSession with _ | s2 <;>
      simp only [Manager.step, Manager.start, hm2]
    · split_ifs <;> simp <;> omega
    · omega
  | pauseOp =>
    rcases hm1 : (m.finalize_finished_runtime_if_any env u).activeSession with _ | s1 <;>
      simp only [Manager.step, Manager.pause, hm1]
    · omega
    · split_ifs <;> simp <;> omega
  | resumeOp =>
    rcases hm1 : (m.finalize_finished_runtime_if_any env u).activeSession with _ | s1 <;>
      simp only [Manager.step, Manager.resume, hm1]
    · omega
    · split_ifs <;> simp <;> omega
  | stopOp =>
    rcases hm1 : (m.finalize_finished_runtime_if_any env u).activeSession with _ | s1 <;>
      rcases hse : env.stopErr with _ | err <;>
      simp only [Manager.step, Manager.stop, hm1, hse]
    · omega
    · omega
    · split_ifs <;> simp <;> omega
    · split_ifs <;> simp <;> omega
  | cancelOp =>
    rcases hm1 : (m.finalize_finished_runtime_if_any env u).activeSession with _ | s1 <;>
      rcases hse : env.stopErr with _ | err <;>
      simp only [Manager.step, Manager.cancel, Manager.stop, hm1, hse]
    · omega
    · omega
    · split_ifs <;> simp <;> omega
    · split_ifs <;> simp <;> omega
  | refreshOp =>
    simp only [Manager.step, Manager.refresh_runtime_state]
    omega
  | snapshotOp => simp [Manager.step]

/-- Unpack well-formedness for a present session. -/
theorem ManagerWF_some {m : Manager} {t : Nat} {s : ActiveSession}
    (hwf : ManagerWF m t) (h : m.activeSession = some s) :
    resumeLE s.last_resume_at t ∧ s.sid < m.nextSid := by
  unfold ManagerWF at hwf
  rw [h] at hwf
  exact hwf

/-- Well-formedness is monotone in the time bound. -/
theorem ManagerWF_mono_time {m : Manager} {t u : Nat} (h : t ≤ u)
    (hwf : ManagerWF m t) : ManagerWF m u := by
  unfold ManagerWF at hwf ⊢
  cases hs : m.activeSession with
  | none => simp [sessionOptWF]
  | some s =>
    rw [hs] at hwf
    simp only [sessionOptWF, SessionWF] at hwf ⊢
    refine ⟨?_, hwf.2⟩
    cases hr : s.last_resume_at with
    | none => trivial
    | some r =>
      have h1 := hwf.1
      rw [hr] at h1
      simp only [resumeLE] at h1 ⊢
      omega

/-- `cleanup_stopped_session_if_any` preserves well-formedness. -/
theorem cleanup_WF {m : Manager} {t : Nat} (hwf : ManagerWF m t) :
    ManagerWF m.cleanup_stopped_session_if_any t := by
  unfold ManagerWF at hwf ⊢
  cases hs : m.activeSession with
  | none => simp [Manager.cleanup_stopped_session_if_any, hs, sessionOptWF]
  | some s =>
    rw [hs] at hwf
    have hwf2 : SessionWF s t m.nextSid := hwf
    simp only [Manager.cleanup_stopped_session_if_any, hs]
    split_ifs
    · simp [sessionOptWF]
    · simp [sessionOptWF, hs, hwf2]

/-- Every operation preserves well-formedness at its own time. -/
theorem step_WF (m : Manager) (op : ManagerOp) (env : ManagerEnv) {t u : Nat}
    (h : t ≤ u) (hwf : ManagerWF m t) : ManagerWF (m.step op env u) u := by
  have hwf1 : ManagerWF (m.finalize_finished_runtime_if_any env u) u :=
    finalize_WF m env h hwf
  cases op with
  | startOp =>
    rcases hm2 : (m.finalize_finished_runtime_if_any env
        u).cleanup_stopped_session_if_any.activeSession with _ | s2 <;>
      simp only [Manager.step, Manager.start, hm2]
    · split_ifs with hb
      · unfold ManagerWF
        simp only [sessionOptWF, SessionWF, ActiveSession.new, resumeLE]
        omega
      · exact cleanup_WF hwf1
    · exact cleanup_WF hwf1
  | pauseOp =>
    rcases hm1 : (m.finalize_finished_runtime_if_any env u).activeSession with _ | s1 <;>
      simp only [Manager.step, Manager.pause, hm1]
    · exact hwf1
    · split_ifs with hcp
      · have hs1 := ManagerWF_some hwf1 hm1
        unfold ManagerWF
        simp only [sessionOptWF, SessionWF, (accumulate_elapsed_fields s1 u).1,
          (accumulate_elapsed_fields s1 u).2.2.1, resumeLE]
        exact ⟨trivial, hs1.2⟩
      · exact hwf1
  | resumeOp =>
    rcases hm1 : (m.finalize_finished_runtime_if_any env u).activeSession with _ | s1 <;>
      simp only [Manager.step, Manager.resume, hm1]
    · exact hwf1
    · split_ifs with hcr
      · have hs1 := ManagerWF_some hwf1 hm1
        unfold ManagerWF
        simp only [sessionOptWF, SessionWF, resumeLE]
        exact ⟨le_refl u, hs1.2⟩
      · exact hwf1
  | stopOp =>
    rcases hm1 : (m.finalize_finished_runtime_if_any env u).activeSession with _ | s1 <;>
      rcases hse : env.stopErr with _ | err <;>
      simp only [Manager.step, Manager.stop, hm1, hse]
    · exact hwf1
    · exact hwf1
    · have hs1 := ManagerWF_some hwf1 hm1
      split_ifs <;>
        unfold ManagerWF <;>
        simp [sessionOptWF, SessionWF, resumeLE, (accumulate_elapsed_fields s1 u).1,
          (accumulate_elapsed_fields s1 u).2.2.1, hs1.2] <;>
        exact hs1.1
    · have hs1 := ManagerWF_some hwf1 hm1
      split_ifs <;>
        unfold ManagerWF <;>
        simp [sessionOptWF, SessionWF, resumeLE, (accumulate_elapsed_fields s1 u).1,
          (accumulate_elapsed_fields s1 u).2.2.1, hs1.2] <;>
        exact hs1.1
  | cancelOp =>
    rcases hm1 : (m.finalize_finished_runtime_if_any env u).activeSession with _ | s1 <;>
      rcases hse : env.stopErr with _ | err <;>
      simp only [Manager.step, Manager.cancel, Manager.stop, hm1, hse]
    · exact hwf1
    · exact hwf1
    · have hs1 := ManagerWF_some hwf1 hm1
      split_ifs <;>
        unfold ManagerWF <;>
        simp [sessionOptWF, SessionWF, resumeLE, (accumulate_elapsed_fields s1 u).1,
          (accumulate_elapsed_fields s1 u).2.2.1, hs1.2] <;>
        exact hs1.1
    · have hs1 := ManagerWF_some hwf1 hm1
      split_ifs <;>
        unfold ManagerWF <;>
        simp [sessionOptWF, SessionWF, resumeLE, (accumulate_elapsed_fields s1 u).1,
          (accumulate_elapsed_fields s1 u).2.2.1, hs1.2] <;>
        exact hs1.1
  | refreshOp => exact hwf1
  | snapshotOp => exact ManagerWF_mono_time h hwf

/-- A state that allows `pause` is `Running`. -/
theorem can_pause_eq (st : CaptureState) (h : st.can_pause = true) :
    st = .running := by
  revert h
  cases st <;> decide

/-- A state that allows `resume` is `Paused`. -/
theorem can_resume_eq (st : CaptureState) (h : st.can_resume = true) :
    st = .paused := by
  revert h
  cases st <;> decide

/-- One operation never shrinks the elapsed reading of a surviving
session: a session in the result whose sid predates the step originates
from the same session of the source manager, read no higher. -/
theorem step_mono (m : Manager) (op : ManagerOp) (env : ManagerEnv) {t u : Nat}
    (h : t ≤ u) (hwf : ManagerWF m t) :
    ∀ s', (m.step op env u).activeSession = some s' → s'.sid < m.nextSid →
      ∃ s, m.activeSession = some s ∧ s.sid = s'.sid ∧
        s.elapsed_ms t ≤ s'.elapsed_ms u := by
  cases op with
  | snapshotOp =>
    intro s' h' _
    exact ⟨s', h', rfl, elapsed_ms_mono_time s' h⟩
  | refreshOp =>
    intro s' h' _
    exact finalize_mono m env h s' h'
  | pauseOp =>
    rcases hm1 : (m.finalize_finished_runtime_if_any env u).activeSession with _ | s1 <;>
      intro s' h' hsid <;>
      simp only [Manager.step, Manager.pause, hm1] at h'
    · exact Option.noConfusion h'
    · split_ifs at h' with hcp
      · simp only [Option.some.injEq] at h'
        subst h'
        obtain ⟨s0, hs0, hsid0, hel0⟩ := finalize_mono m env h s1 hm1
        refine ⟨s0, hs0, ?_, ?_⟩
        · simpa [(accumulate_elapsed_fields s1 u).1] using hsid0
        · calc s0.elapsed_ms t ≤ s1.elapsed_ms u := hel0
            _ ≤ (s1.accumulate_elapsed u).elapsed_before_pause_ms :=
                elapsed_ms_le_accumulate s1 (le_refl u)
            _ = _ := by simp [ActiveSession.elapsed_ms]
      · simp only [hm1, Option.some.injEq] at h'
        subst h'
        exact finalize_mono m env h s1 hm1
  | resumeOp =>
    rcases hm1 : (m.finalize_finished_runtime_if_any env u).activeSession with _ | s1 <;>
      intro s' h' hsid <;>
      simp only [Manager.step, Manager.resume, hm1] at h'
    · exact Option.noConfusion h'
    · split_ifs at h' with hcr
      · simp only [Option.some.injEq] at h'
        subst h'
        obtain ⟨s0, hs0, hsid0, hel0⟩ := finalize_mono m env h s1 hm1
        have hps := can_resume_eq s1.state hcr
        refine ⟨s0, hs0, hsid0, ?_⟩
        calc s0.elapsed_ms t ≤ s1.elapsed_ms u := hel0
          _ = s1.elapsed_before_pause_ms := by simp [ActiveSession.elapsed_ms, hps]
          _ = _ := by simp [ActiveSession.elapsed_ms]
      · simp only [hm1, Option.some.injEq] at h'
        subst h'
        exact finalize_mono m env h s1 hm1
  | stopOp =>
    rcases hm1 : (m.finalize_finished_runtime_if_any env u).activeSession with _ | s1 <;>
      rcases hse : env.stopErr with _ | err <;>
      intro s' h' hsid <;>
      simp only [Manager.step, Manager.stop, hm1, hse] at h'
    · exact Option.noConfusion h'
    · exact Option.noConfusion h'
    · split_ifs at h' <;> simp at h'
      subst h'
      exact finalize_mono m env h s1 hm1
    · split_ifs at h' with hcs hrp hst hrp2 <;> simp at h'
      · subst h'
        obtain ⟨s0, hs0, hsid0, hel0⟩ := finalize_mono m env h s1 hm1
        refine ⟨s0, hs0, ?_, ?_⟩
        · simpa [(accumulate_elapsed_fields s1 u).1] using hsid0
        · calc s0.elapsed_ms t ≤ s1.elapsed_ms u := hel0
            _ ≤ (s1.accumulate_elapsed u).elapsed_before_pause_ms :=
                elapsed_ms_le_accumulate s1 (le_refl u)
            _ = _ := by simp [ActiveSession.elapsed_ms]
      · subst h'
        exact finalize_mono m env h s1 hm1
      · subst h'
        obtain ⟨s0, hs0, hsid0, hel0⟩ := finalize_mono m env h s1 hm1
        exact ⟨s0, hs0, hsid0, hel0⟩
  | cancelOp =>
    rcases hm1 : (m.finalize_finished_runtime_if_any env u).activeSession with _ | s1 <;>
      rcases hse : env.stopErr with _ | err <;>
      intro s' h' hsid <;>
      simp only [Manager.step, Manager.cancel, Manager.stop, hm1, hse] at h'
    · exact Option.noConfusion h'
    · exact Option.noConfusion h'
    · split_ifs at h' <;> simp at h'
      subst h'
      exact finalize_mono m env h s1 hm1
    · split_ifs at h' with hcs hrp hst hrp2 <;> simp at h'
      · subst h'
        obtain ⟨s0, hs0, hsid0, hel0⟩ := finalize_mono m env h s1 hm1
        refine ⟨s0, hs0, ?_, ?_⟩
        · simpa [(accumulate_elapsed_fields s1 u).1] using hsid0
        · calc s0.elapsed_ms t ≤ s1.elapsed_ms u := hel0
            _ ≤ (s1.accumulate_elapsed u).elapsed_before_pause_ms :=
                elapsed_ms_le_accumulate s1 (le_refl u)
            _ = _ := by simp [ActiveSession.elapsed_ms]
      · subst h'
        exact finalize_mono m env h s1 hm1
      · subst h'
        obtain ⟨s0, hs0, hsid0, hel0⟩ := finalize_mono m env h s1 hm1
        exact ⟨s0, hs0, hsid0, hel0⟩
  | startOp =>
    rcases hm2 : (m.finalize_finished_runtime_if_any env
        u).cleanup_stopped_session_if_any.activeSession with _ | s2 <;>
      intro s' h' hsid <;>
      simp only [Manager.step, Manager.start, hm2, Option.some.injEq] at h'
    · split_ifs at h' with hb
      · simp only [Option.some.injEq] at h'
        subst h'
        exfalso
        have hsid2 : (ActiveSession.new ((m.finalize_finished_runtime_if_any env
            u).cleanup_stopped_session_if_any.nextSid) u).sid = m.nextSid := by
          simp [ActiveSession.new, cleanup_nextSid, finalize_nextSid]
        rw [hsid2] at hsid
        omega
      · simp only [hm2] at h'
        exact Option.noConfusion h'
    · subst h'
      exact finalize_mono m env h s2
        (cleanup_session (m.finalize_finished_runtime_if_any env u) s2 hm2)

/-- Elapsed monotonicity over a timed trace, for sessions whose identity
predates the trace. -/
theorem run_mono (trace : List (ManagerOp × ManagerEnv × Nat)) :
    ∀ (m : Manager) (t t2 : Nat), ManagerWF m t → TimesChain t trace t2 →
      ∀ s', (m.run trace).activeSession = some s' → s'.sid < m.nextSid →
        ∃ s, m.activeSession = some s ∧ s.sid = s'.sid ∧
          s.elapsed_ms t ≤ s'.elapsed_ms t2 := by
  induction trace with
  | nil =>
    intro m t t2 hwf ht s' h' hsid
    have htle : t ≤ t2 := by
      unfold TimesChain at ht
      simp only [List.map_nil, List.nil_append] at ht
      exact (List.chain_cons.mp ht).1
    exact ⟨s', h', rfl, elapsed_ms_mono_time s' htle⟩
  | cons e rest ih =>
    obtain ⟨op, env, uT⟩ := e
    intro m t t2 hwf ht s' h' hsid
    have ht2 : t ≤ uT ∧ TimesChain uT rest t2 := by
      unfold TimesChain at ht ⊢
      simp only [List.map_cons, List.cons_append] at ht
      exact ⟨(List.chain_cons.mp ht).1, (List.chain_cons.mp ht).2⟩
    have hwf1 := step_WF m op env ht2.1 hwf
    have hnext := step_nextSid m op env uT
    have hrun : m.run ((op, env, uT) :: rest) = (m.step op env uT).run rest := rfl
    rw [hrun] at h'
    obtain ⟨s1, hs1, hsid1, hel1⟩ := ih (m.step op env uT) uT t2 hwf1 ht2.2 s' h'
      (lt_of_lt_of_le hsid hnext)
    obtain ⟨s0, hs0, hsid0, hel0⟩ := step_mono m op env ht2.1 hwf s1 hs1
      (by rw [hsid1]; exact hsid)
    exact ⟨s0, hs0, by rw [hsid0, hsid1], le_trans hel0 hel1⟩

/-- Claim C6: across any legal timed sequence of manager operations
(start, pause, resume, stop, cancel, refresh_runtime_state, snapshot)
run at non-decreasing times, the elapsed reading reported for one and
the same session never decreases: a later `(sid, elapsed)` reading of
the session `sid` is at least an earlier one. -/
theorem manager_elapsed_monotone (m : Manager) (t1 t2 : Nat)
    (trace : List (ManagerOp × ManagerEnv × Nat)) (sid e1 e2 : Nat)
    (hwf : ManagerWF m t1) (ht : TimesChain t1 trace t2)
    (h1 : m.session_reading t1 = some (sid, e1))
    (h2 : (m.run trace).session_reading t2 = some (sid, e2)) :
    e1 ≤ e2 := by
  unfold Manager.session_reading at h1 h2
  rcases hs : m.activeSession with _ | s
  · rw [hs] at h1
    simp at h1
  rcases hs2 : (m.run trace).activeSession with _ | s'
  · rw [hs2] at h2
    simp at h2
  rw [hs] at h1
  rw [hs2] at h2
  simp only [Option.map_some', Option.some.injEq, Prod.mk.injEq] at h1 h2
  have hsidlt : s'.sid < m.nextSid := by
    have hlt := (ManagerWF_some hwf hs).2
    have hds : s.sid = s'.sid := by rw [h1.1, h2.1]
    omega
  obtain ⟨s0, hs0, hsid0, hel0⟩ := run_mono trace m t1 t2 hwf ht s' hs2 hsidlt
  rw [hs] at hs0
  injection hs0 with h3
  rw [← h1.2, ← h2.2, h3]
  exact hel0

/-- Checks Claim C6's theorem on a concrete run: a running session is
paused at time 20 and read again later; the earlier reading 0 at time 10
is bounded by the later reading 10 at time 30. -/
theorem manager_elapsed_monotone_witness :
    ManagerWF ⟨some ⟨0, .running, 0, some 10, none, true⟩, 1⟩ 10 ∧
    TimesChain 10 [(.pauseOp, ⟨false, none, none, true⟩, 20)] 30 ∧
    (⟨some ⟨0, .running, 0, some 10, none, true⟩, 1⟩ : Manager).session_reading 10 =
      some (0, 0) ∧
    ((⟨some ⟨0, .running, 0, some 10, none, true⟩, 1⟩ : Manager).run
      [(.pauseOp, ⟨false, none, none, true⟩, 20)]).session_reading 30 = some (0, 10) ∧
    (0 : Nat) ≤ 10 := by
  have htc : TimesChain 10 [(.pauseOp, ⟨false, none, none, true⟩, 20)] 30 := by
    unfold TimesChain
    exact List.Chain.cons (by norm_num) (List.Chain.cons (by norm_num) List.Chain.nil)
  exact ⟨by decide, htc, by decide, by decide,
    manager_elapsed_monotone ⟨some ⟨0, .running, 0, some 10, none, true⟩, 1⟩ 10 30
      [(.pauseOp, ⟨false, none, none, true⟩, 20)] 0 0 10
      (by decide) htc (by decide) (by decide)⟩

/-- A string contains its own appended suffix. -/
theorem strContains_append_right (a b : String) : strContains (a ++ b) b := by
  unfold strContains
  have hd : (a ++ b).toList = a.toList ++ b.toList := by
    simp [String.toList]
  rw [hd]
  exact (List.suffix_append a.toList b.toList).isInfix

/-! ## Claim C5: invalid transitions -/

/-- Claim C5 counterexample: with no active session the manager's state
is `Idle` and pausing is an invalid transition, yet the error message is
"No hay una grabación activa", which does not name the current state
(`Idle`); the claim as stated over every manager state is refuted. -/
theorem manager_invalid_transition_counterexample :
    Manager.snapshot_state ⟨none, 0⟩ = .idle ∧
    CaptureState.can_pause .idle = false ∧
    (Manager.pause ⟨none, 0⟩ ⟨false, none, none, true⟩ 0).2 =
      .error "No hay una grabación activa" ∧
    ¬ strContains "No hay una grabación activa" (CaptureState.display .idle) := by
  refine ⟨rfl, rfl, rfl, by decide⟩

/-- Claim C5 (amended): when an active session exists (its runtime still
live if the session is live), `pause`/`resume` from a state that forbids
the transition return an error naming the session's current state and
leave the manager unchanged; `stop` from a state that forbids stopping
and is not `Stopped` does the same; and `stop` on a session already
`Stopped` succeeds and clears the session (stop is idempotent on
`Stopped`).  With no active session the operations instead fail with
"No hay una grabación activa", which names no state. -/
theorem manager_invalid_transition_errors (m : Manager) (s : ActiveSession)
    (env : ManagerEnv) (now : Nat)
    (hses : m.activeSession = some s)
    (hrt : s.state = .running ∨ s.state = .paused →
      s.runtimePresent = true ∧ env.runtimeFinished = false)
    (hstop : s.state = .stopped → s.runtimePresent = false) :
    (s.state.can_pause = false →
      (m.pause env now).1 = m ∧
      (m.pause env now).2 = .error
        ("Transición inválida: no se puede pausar desde " ++ s.state.display) ∧
      strContains ("Transición inválida: no se puede pausar desde " ++ s.state.display)
        s.state.display) ∧
    (s.state.can_resume = false →
      (m.resume env now).1 = m ∧
      (m.resume env now).2 = .error
        ("Transición inválida: no se puede reanudar desde " ++ s.state.display) ∧
      strContains ("Transición inválida: no se puede reanudar desde " ++ s.state.display)
        s.state.display) ∧
    (s.state.can_stop = false → s.state ≠ .stopped →
      (m.stop env now).1 = m ∧
      (m.stop env now).2 = .error
        ("Transición inválida: no se puede detener desde " ++ s.state.display) ∧
      strContains ("Transición inválida: no se puede detener desde " ++ s.state.display)
        s.state.display) ∧
    (s.state = .stopped →
      (m.stop env now).2 = .ok () ∧ (m.stop env now).1.activeSession = none) := by
  have hfin : m.finalize_finished_runtime_if_any env now = m := by
    simp only [Manager.finalize_finished_runtime_if_any, hses]
    rw [if_neg]
    rintro ⟨hsp, hrf⟩
    obtain ⟨hp1, hp2⟩ := hrt hsp
    unfold ActiveSession.runtime_finished at hrf
    simp [hp1, hp2] at hrf
  have heta : ({ activeSession := some s, nextSid := m.nextSid } : Manager) = m := by
    rw [← hses]
  refine ⟨?_, ?_, ?_, ?_⟩
  · intro hcp
    refine ⟨?_, ?_, strContains_append_right _ _⟩ <;>
      simp [Manager.pause, hfin, hses, hcp]
  · intro hcr
    refine ⟨?_, ?_, strContains_append_right _ _⟩ <;>
      simp [Manager.resume, hfin, hses, hcr]
  · intro hcs hne
    refine ⟨?_, ?_, strContains_append_right _ _⟩ <;>
      simp [Manager.stop, hfin, hses, hcs, hne, heta]
  · intro hst
    have hrp := hstop hst
    constructor <;>
      simp [Manager.stop, hfin, hses, hst, hrp, CaptureState.can_stop]

/-- Checks Claim C5's amended theorem on a session already in the
`Stopped` state: pausing errors naming "Stopped" and stop is
idempotent. -/
theorem manager_invalid_transition_errors_witness :
    (⟨some ⟨0, .stopped, 42, none, none, false⟩, 1⟩ : Manager).activeSession =
      some ⟨0, .stopped, 42, none, none, false⟩ ∧
    ((⟨0, .stopped, 42, none, none, false⟩ : ActiveSession).state = .running ∨
      (⟨0, .stopped, 42, none, none, false⟩ : ActiveSession).state = .paused →
      (⟨0, .stopped, 42, none, none, false⟩ : ActiveSession).runtimePresent = true ∧
        (⟨false, none, none, true⟩ : ManagerEnv).runtimeFinished = false) ∧
    ((⟨0, .stopped, 42, none, none, false⟩ : ActiveSession).state = .stopped →
      (⟨0, .stopped, 42, none, none, false⟩ : ActiveSession).runtimePresent = false) ∧
    ((⟨0, .stopped, 42, none, none, false⟩ : ActiveSession).state.can_pause = false →
      ((⟨some ⟨0, .stopped, 42, none, none, false⟩, 1⟩ : Manager).pause
          ⟨false, none, none, true⟩ 5).1 = ⟨some ⟨0, .stopped, 42, none, none, false⟩, 1⟩ ∧
      ((⟨some ⟨0, .stopped, 42, none, none, false⟩, 1⟩ : Manager).pause
          ⟨false, none, none, true⟩ 5).2 = .error
        ("Transición inválida: no se puede pausar desde " ++
          (⟨0, .stopped, 42, none, none, false⟩ : ActiveSession).state.display) ∧
      strContains ("Transición inválida: no se puede pausar desde " ++
          (⟨0, .stopped, 42, none, none, false⟩ : ActiveSession).state.display)
        (⟨0, .stopped, 42, none, none, false⟩ : ActiveSession).state.display) := by
  refine ⟨rfl, by decide, by decide, ?_⟩
  exact (manager_invalid_transition_errors ⟨some ⟨0, .stopped, 42, none, none, false⟩, 1⟩
    ⟨0, .stopped, 42, none, none, false⟩ ⟨false, none, none, true⟩ 5 rfl
    (by decide) (by decide)).1

end Capturist
